import Mathlib

/-!
Verification of the training script of the SGRU anime-sketch-coloring
repository (`src/train.py`) against its natural-language specification.

The script is embedded shallowly:

* tensors (`tf` 4-D tensors of shape `[batch, rows, cols, chans]`) become a
  structure holding the four dynamic extents and a total valuation function
  into `ℚ`; reductions (`tf.reduce_sum`, …) sum the valuation over the
  recorded extents;
* the frozen VGG-19 network and `tf.image.resize_images` are opaque
  parameters (`VggNet`, `ResizeFn`): the loss code treats both as black
  boxes, so every theorem quantifies over them;
* the side-effecting orchestration (`main` / `train`) becomes a pure
  function from the would-be filesystem state and the parsed arguments to
  the list of effects the script performs plus an optional exit outcome;
* `numpy`'s `astype(np.uint8)` on floats is modelled as truncation toward
  zero followed by taking the remainder modulo 256 (the two's-complement
  low byte), which is what the C float-to-unsigned-char conversion performs
  on the platforms the script targets.
-/

namespace SGRUTrain

/-- A 4-D tensor `[batch, rows, cols, chans]` with dynamic extents.  The
valuation is total; only indices below the extents are ever summed over. -/
structure Tensor4 where
  batch : ℕ
  rows : ℕ
  cols : ℕ
  chans : ℕ
  val : ℕ → ℕ → ℕ → ℕ → ℚ

/-- The all-zero empty tensor (used as a `getD` fallback). -/
def zeroT : Tensor4 := ⟨0, 0, 0, 0, fun _ _ _ _ => 0⟩

/-- The named end-point collection returned by `vgg_19`. -/
abbrev EndPoints := String → Tensor4

/-- The frozen VGG-19 network, opaque to the training script. -/
abbrev VggNet := Tensor4 → EndPoints

/-- `tf.image.resize_images img (rows, cols)`, opaque to the training
script. -/
abbrev ResizeFn := Tensor4 → ℕ → ℕ → Tensor4

/-- The per-channel VGG means (`vgg_mean` in `vgg_19_evaluate`),
broadcast over the last tensor axis. -/
def vgg_mean : ℕ → ℚ := fun k =>
  if k = 0 then 103.939 else if k = 1 then 116.779 else 123.68

/-- `image_normalized = image * 255.0 - vgg_mean` (train.py line 21). -/
def image_normalized (image : Tensor4) : Tensor4 :=
  { image with val := fun b r c k => image.val b r c k * 255 - vgg_mean k }

/-- `vgg_19_evaluate` (train.py lines 16–24): computes the normalized image
but feeds the *original* `image` to the network. -/
def vgg_19_evaluate (vggNet : VggNet) (image : Tensor4) : EndPoints :=
  let _image_normalized := image_normalized image
  vggNet image

/-- `vgg_19_evaluate` with the (dead) normalization step deleted; stated
from the spec's words for comparison with the source embedding. -/
def vgg_19_evaluate_without_normalization (vggNet : VggNet) (image : Tensor4) :
    EndPoints :=
  vggNet image

/-- `lambda_weights` (train.py line 32). -/
def lambda_weights : List ℚ := [0.88, 0.79, 0.63, 0.51, 0.39, 1.07]

/-- `layers` (train.py lines 36–43). -/
def layers : List String :=
  ["input",
   "vgg_19/conv1/conv1_2",
   "vgg_19/conv2/conv2_2",
   "vgg_19/conv3/conv3_2",
   "vgg_19/conv4/conv4_2",
   "vgg_19/conv5/conv5_2"]

/-- `collection_size = 9` (train.py line 46). -/
def collection_size : ℕ := 9

/-- `images_rgb_fake[:, :, :, i*3:(i+1)*3]` (train.py line 52): the `i`-th
contiguous 3-channel slice of a candidate bundle. -/
def sliceChannels (t : Tensor4) (i : ℕ) : Tensor4 :=
  { t with chans := 3, val := fun b r c k => t.val b r c (i * 3 + k) }

/-- Elementwise `weight * mask * tf.abs(act_fake - act_real)`
(train.py line 67); the `[batch, rows, cols, 1]` mask broadcasts over the
channel axis, and the result carries the activations' shape. -/
def maskMul (weight : ℚ) (mask t : Tensor4) : Tensor4 :=
  { t with val := fun b r c k => weight * mask.val b r c 0 * t.val b r c k }

/-- Elementwise `tf.abs (a - b)` with `a`'s shape. -/
def absDiff (a b : Tensor4) : Tensor4 :=
  { a with val := fun i r c k => |a.val i r c k - b.val i r c k| }

/-- `tf.reduce_sum` over every element of a tensor (train.py line 70). -/
def reduceSum (t : Tensor4) : ℚ :=
  ∑ b in Finset.range t.batch, ∑ r in Finset.range t.rows,
    ∑ c in Finset.range t.cols, ∑ k in Finset.range t.chans, t.val b r c k

/-- `act_fake` for candidate `i` at a named layer (train.py lines 57–61). -/
def actFake (vggNet : VggNet) (images_rgb_fake : Tensor4) (i : ℕ)
    (layer : String) : Tensor4 :=
  if layer = "input" then sliceChannels images_rgb_fake i
  else vgg_19_evaluate vggNet (sliceChannels images_rgb_fake i) layer

/-- `act_real` at a named layer (train.py lines 57–62). -/
def actReal (vggNet : VggNet) (image_rgb_real : Tensor4) (layer : String) :
    Tensor4 :=
  if layer = "input" then image_rgb_real
  else vgg_19_evaluate vggNet image_rgb_real layer

/-- `mask = tf.image.resize_images(image_bw, tf.shape(act_fake)[1:3])`
(train.py line 64). -/
def layerMask (resize : ResizeFn) (image_bw act_fake : Tensor4) : Tensor4 :=
  resize image_bw act_fake.rows act_fake.cols

/-- One `loss_inner` scalar (train.py lines 64–70) for candidate `i`,
weight `weight` and layer `layer`. -/
def lossInner (vggNet : VggNet) (resize : ResizeFn)
    (image_bw image_rgb_real images_rgb_fake : Tensor4)
    (i : ℕ) (weight : ℚ) (layer : String) : ℚ :=
  let act_fake := actFake vggNet images_rgb_fake i layer
  let act_real := actReal vggNet image_rgb_real layer
  let mask := layerMask resize image_bw act_fake
  reduceSum (maskMul weight mask (absDiff act_fake act_real))

/-- `losses_collection` for candidate `i` (train.py lines 50–73), with the
layer-weight list `w` a parameter (the script fixes `w = lambda_weights`). -/
def losses_collection (vggNet : VggNet) (resize : ResizeFn)
    (image_bw image_rgb_real images_rgb_fake : Tensor4)
    (w : List ℚ) (i : ℕ) : List ℚ :=
  (w.zip layers).map fun p =>
    lossInner vggNet resize image_bw image_rgb_real images_rgb_fake i p.1 p.2

/-- `loss_collection = tf.reduce_sum(losses_collection)` (train.py
line 75). -/
def loss_collection (vggNet : VggNet) (resize : ResizeFn)
    (image_bw image_rgb_real images_rgb_fake : Tensor4)
    (w : List ℚ) (i : ℕ) : ℚ :=
  (losses_collection vggNet resize image_bw image_rgb_real images_rgb_fake w i).sum

/-- The `losses` list over the 9 candidates (train.py lines 45–76). -/
def lossesList (vggNet : VggNet) (resize : ResizeFn)
    (image_bw image_rgb_real images_rgb_fake : Tensor4)
    (w : List ℚ) : List ℚ :=
  (List.range collection_size).map
    (loss_collection vggNet resize image_bw image_rgb_real images_rgb_fake w)

/-- `tf.reduce_min` of a list of scalars (the list is always nonempty in
the script; the `[]` case is arbitrary). -/
def listMin : List ℚ → ℚ
  | [] => 0
  | x :: xs => xs.foldl min x

/-- `tf.reduce_mean` of a list of scalars. -/
def listMean (l : List ℚ) : ℚ := l.sum / l.length

/-- `loss = loss_min * 0.999 + loss_mean * 0.001` (train.py lines 78–80)
as a function of the per-candidate losses. -/
def minMeanBlend (losses : List ℚ) : ℚ :=
  listMin losses * 0.999 + listMean losses * 0.001

/-- `build_loss_func` (train.py lines 27–84) with the layer-weight list a
parameter. -/
def build_loss_funcW (vggNet : VggNet) (resize : ResizeFn)
    (image_bw image_rgb_real images_rgb_fake : Tensor4)
    (w : List ℚ) : ℚ :=
  let losses := lossesList vggNet resize image_bw image_rgb_real images_rgb_fake w
  let loss_min := listMin losses
  let loss_mean := listMean losses
  loss_min * 0.999 + loss_mean * 0.001

/-- `build_loss_func` (train.py lines 27–84) at the script's fixed
`lambda_weights`. -/
def build_loss_func (vggNet : VggNet) (resize : ResizeFn)
    (image_bw image_rgb_real images_rgb_fake : Tensor4) : ℚ :=
  build_loss_funcW vggNet resize image_bw image_rgb_real images_rgb_fake
    lambda_weights

/-! ### The visualization sink (`save_images`, train.py lines 87–105) -/

/-- An image with `chans` channels and a total pixel valuation. -/
structure Img (α : Type) where
  h : ℕ
  w : ℕ
  chans : ℕ
  px : ℕ → ℕ → ℕ → α

/-- Pointwise pixel transformation (a vectorized `numpy` op). -/
def mapImg {α β : Type} (f : α → β) (im : Img α) : Img β :=
  { h := im.h, w := im.w, chans := im.chans, px := fun r c k => f (im.px r c k) }

/-- `np.minimum(np.maximum(x, 0.0), 1.0)` (train.py line 91). -/
def clip01 (x : ℚ) : ℚ := min (max x 0) 1

/-- Truncation toward zero, the C float-to-integer conversion. -/
def truncInt (x : ℚ) : ℤ := if 0 ≤ x then ⌊x⌋ else -⌊-x⌋

/-- `astype(np.uint8)` on a float value: truncate toward zero and keep the
low byte (remainder modulo 256). -/
def astype_uint8 (x : ℚ) : ℤ := truncInt x % 256

/-- `(v * 255).astype(np.uint8)` applied to one value (train.py
lines 93–95). -/
def u8scale (v : ℚ) : ℤ := astype_uint8 (v * 255)

/-- The value written for one candidate (`fake`) pixel: clipped at line 91,
then scaled and cast at line 93. -/
def fakeWritePixel (v : ℚ) : ℤ := u8scale (clip01 v)

/-- The value written for one ground-truth (`real`) pixel: scaled and cast
at line 94, with no clipping. -/
def realWritePixel (v : ℚ) : ℤ := u8scale v

/-- The value written for one grayscale (`bw`) pixel: scaled and cast at
line 95, with no clipping. -/
def bwWritePixel (v : ℚ) : ℤ := u8scale v

/-- `cv2.cvtColor(image_bw, cv2.COLOR_GRAY2BGR)` (train.py line 99):
replicate the single gray channel into 3 channels. -/
def grayToBGR (im : Img ℤ) : Img ℤ :=
  { h := im.h, w := im.w, chans := 3, px := fun r c _ => im.px r c 0 }

/-- `collection_fake[:, :, i*3:(i+1)*3]` (train.py line 100). -/
def sliceImgChannels (im : Img ℤ) (i : ℕ) : Img ℤ :=
  { h := im.h, w := im.w, chans := 3, px := fun r c k => im.px r c (i * 3 + k) }

/-- Horizontal concatenation of two images (`np.hstack` step). -/
def hstack2 (a b : Img ℤ) : Img ℤ :=
  { h := a.h, w := a.w + b.w, chans := a.chans,
    px := fun r c k => if c < a.w then a.px r c k else b.px r (c - a.w) k }

/-- The all-zero empty image (`np.hstack` / `np.vstack` of an empty list
raises in `numpy`; the script never produces one). -/
def zeroImg : Img ℤ := ⟨0, 0, 0, fun _ _ _ => 0⟩

/-- `np.hstack` of a list of images (train.py line 101). -/
def hstackN : List (Img ℤ) → Img ℤ
  | [] => zeroImg
  | x :: xs => xs.foldl hstack2 x

/-- Vertical concatenation of two images (`np.vstack` step). -/
def vstack2 (a b : Img ℤ) : Img ℤ :=
  { h := a.h + b.h, w := a.w, chans := a.chans,
    px := fun r c k => if r < a.h then a.px r c k else b.px (r - a.h) c k }

/-- `np.vstack` of a list of images (train.py line 103). -/
def vstackN : List (Img ℤ) → Img ℤ
  | [] => zeroImg
  | x :: xs => xs.foldl vstack2 x

/-- Python's 3-way `zip`, truncating to the shortest input. -/
def zip3 {α β γ : Type} (a : List α) (b : List β) (c : List γ) :
    List (α × β × γ) :=
  (a.zip (b.zip c)).map fun p => (p.1, p.2.1, p.2.2)

/-- One tiled row (train.py lines 99–101):
`[gray-as-BGR, real, candidate_0, …, candidate_8]` horizontally stacked. -/
def tileRow (image_bw image_rgb_real collection_fake : Img ℤ) : Img ℤ :=
  hstackN ([grayToBGR image_bw, image_rgb_real] ++
    (List.range 9).map (sliceImgChannels collection_fake))

/-- `save_images` (train.py lines 87–105) as the tiled image it writes:
clip the candidate batch, scale-and-cast all three batches to bytes, tile
one row per example and stack the rows vertically. -/
def save_images (batch_rgb_fake batch_rgb_real batch_bw : List (Img ℚ)) :
    Img ℤ :=
  let batch_rgb_fake := batch_rgb_fake.map (mapImg clip01)
  let batch_fake := batch_rgb_fake.map (mapImg u8scale)
  let batch_real := batch_rgb_real.map (mapImg u8scale)
  let batch_bw := batch_bw.map (mapImg u8scale)
  let row_images := (zip3 batch_bw batch_real batch_fake).map fun t =>
    tileRow t.1 t.2.1 t.2.2
  vstackN row_images

/-! ### Bundle slicing and reassembly (C7) -/

/-- The 9 contiguous 3-channel slices of a candidate bundle. -/
def sliceBundle (t : Tensor4) : List Tensor4 :=
  (List.range 9).map (sliceChannels t)

/-- `tf.concat`-style reassembly of 3-channel parts along the channel
axis. -/
def concat3List (parts : List Tensor4) : Tensor4 :=
  { batch := (parts.headD zeroT).batch,
    rows := (parts.headD zeroT).rows,
    cols := (parts.headD zeroT).cols,
    chans := 3 * parts.length,
    val := fun b r c k => (parts.getD (k / 3) zeroT).val b r c (k % 3) }

/-- Tensor equality: equal extents and equal values at every in-range
index (the semantics of `==` on same-shape tensors). -/
def tensorEq (a b : Tensor4) : Prop :=
  a.batch = b.batch ∧ a.rows = b.rows ∧ a.cols = b.cols ∧ a.chans = b.chans ∧
    ∀ i < a.batch, ∀ r < a.rows, ∀ c < a.cols, ∀ k < a.chans,
      a.val i r c k = b.val i r c k

/-! ### Orchestration effects (`main` / `train`, train.py lines 108–203) -/

/-- The externally visible effects of the script, in program order. -/
inductive Effect where
  | buildModel : Effect
  | createDir : String → Effect
  | startWorkers : ℕ → Effect
  | writeSummary : ℕ → Effect
  | printLoss : ℕ → ℕ → Effect
  | writeImage : String → Effect
  | saveCheckpoint : String → Effect
  deriving DecidableEq, Repr

/-- `os.path.join` for the relative paths the script builds. -/
def pathJoin (a b : String) : String := a ++ "/" ++ b

/-- The parsed command-line arguments (`get_args`, train.py
lines 190–203). -/
structure Args where
  data_dir : String
  output_dir : String
  batch_size : ℕ
  epochs : ℕ
  resume : Bool
  save_every : ℕ
  num_cpus : ℕ
  summarize : Bool
  name : String

/-- `get_args` with only the positional arguments (and the
timestamp-derived experiment name) supplied: every option takes its
declared default (train.py lines 190–203). -/
def get_args (data_dir output_dir timestamp_name : String) : Args :=
  { data_dir := data_dir, output_dir := output_dir, batch_size := 1,
    epochs := 100, resume := false, save_every := 50, num_cpus := 4,
    summarize := false, name := timestamp_name }

/-- The effects of one loop body iteration of `train` (train.py
lines 143–167): report a summary and the printed loss every step, and
every `save_every`-th batch ensure the image directory exists, write the
visualization and snapshot the model. -/
def trainStepEffects (args : Args) (num_batches epoch batch_num : ℕ) :
    List Effect :=
  let output_dir := pathJoin args.output_dir args.name
  [Effect.writeSummary (epoch * num_batches + batch_num),
   Effect.printLoss epoch batch_num] ++
  (if batch_num % args.save_every = 0 then
    let image_dir := pathJoin output_dir "images"
    [Effect.createDir image_dir,
     Effect.writeImage (pathJoin image_dir
       (toString epoch ++ "_" ++ toString batch_num ++ ".jpg")),
     Effect.saveCheckpoint (pathJoin output_dir "model.ckpt")]
  else [])

/-- The effects of `train` (train.py lines 108–167): create the run
directory for the summary writer, start the image-loading workers, then
run the epoch/batch loop. -/
def trainEffects (args : Args) (num_batches : ℕ) : List Effect :=
  [Effect.createDir (pathJoin args.output_dir args.name),
   Effect.startWorkers args.num_cpus] ++
  (List.range args.epochs).flatMap fun epoch =>
    (List.range num_batches).flatMap (trainStepEffects args num_batches epoch)

/-- The `sys.exit` message of `main` (train.py lines 173–175). -/
def checkpointMessage : String :=
  "Download VGG19 checkpoint from " ++
  "http://download.tensorflow.org/models/vgg_19_2016_08_28.tar.gz " ++
  "and save it to the root of your data_dir"

/-- `main` (train.py lines 170–183) as the pair of the effects performed
and the exit outcome (`some (code, message)` when `sys.exit` fires; the
checkpoint probe is the very first statement). -/
def main_run (fileExists : String → Bool) (args : Args) (num_batches : ℕ) :
    List Effect × Option (ℕ × String) :=
  if fileExists (pathJoin args.data_dir "vgg_19.ckpt") = false then
    ([], some (1, checkpointMessage))
  else
    (Effect.buildModel :: trainEffects args num_batches, none)

/-! ### Spec-side formulations used to state the claims -/

/-- The spec's per-layer score for candidate `i` and layer index `j`: the
layer's fixed weight times the resampled grayscale mask times the
elementwise absolute difference, summed over all elements. -/
def specLayerScore (vggNet : VggNet) (resize : ResizeFn)
    (image_bw image_rgb_real images_rgb_fake : Tensor4) (i j : ℕ) : ℚ :=
  let weight := lambda_weights.getD j 0
  let layer := layers.getD j ""
  let af := actFake vggNet images_rgb_fake i layer
  let ar := actReal vggNet image_rgb_real layer
  ∑ b in Finset.range af.batch, ∑ r in Finset.range af.rows,
    ∑ c in Finset.range af.cols, ∑ k in Finset.range af.chans,
      weight * ((layerMask resize image_bw af).val b r c 0 *
        |af.val b r c k - ar.val b r c k|)

/-- Candidate `i` matches the ground truth at a named layer under the
mask: at every in-range element where the resampled mask is nonzero, the
candidate's activation equals the ground truth's. -/
def candidateMatchesAtLayer (vggNet : VggNet) (resize : ResizeFn)
    (image_bw image_rgb_real images_rgb_fake : Tensor4) (i : ℕ)
    (layer : String) : Prop :=
  ∀ b < (actFake vggNet images_rgb_fake i layer).batch,
    ∀ r < (actFake vggNet images_rgb_fake i layer).rows,
      ∀ c < (actFake vggNet images_rgb_fake i layer).cols,
        ∀ k < (actFake vggNet images_rgb_fake i layer).chans,
          (layerMask resize image_bw
              (actFake vggNet images_rgb_fake i layer)).val b r c 0 ≠ 0 →
            (actFake vggNet images_rgb_fake i layer).val b r c k =
              (actReal vggNet image_rgb_real layer).val b r c k

/-- Every candidate matches the ground truth at every weighted layer
under the mask. -/
def allCandidatesMatch (vggNet : VggNet) (resize : ResizeFn)
    (image_bw image_rgb_real images_rgb_fake : Tensor4) : Prop :=
  ∀ i < collection_size, ∀ p ∈ lambda_weights.zip layers,
    candidateMatchesAtLayer vggNet resize image_bw image_rgb_real
      images_rgb_fake i p.2

/-! ### General helper lemmas -/

lemma getD_map_range {α : Type} (f : ℕ → α) (n i : ℕ) (h : i < n) (d : α) :
    ((List.range n).map f).getD i d = f i := by
  have hl : i < ((List.range n).map f).length := by simpa using h
  rw [List.getD_eq_getElem _ _ hl]
  simp

/-! ### C9: the dead normalization in `vgg_19_evaluate` -/

/-- C9: `vgg_19_evaluate` computes the normalized image
(`input * 255 - vgg_mean`) but passes the original input to the network,
so its output equals the variant with the normalization step deleted and
is just the network applied to the raw image. -/
theorem C9_normalization_is_dead :
    (∀ (image : Tensor4) (b r c k : ℕ),
      (image_normalized image).val b r c k = image.val b r c k * 255 - vgg_mean k) ∧
    (∀ (vggNet : VggNet) (image : Tensor4),
      vgg_19_evaluate vggNet image =
        vgg_19_evaluate_without_normalization vggNet image) ∧
    (∀ (vggNet : VggNet) (image : Tensor4),
      vgg_19_evaluate vggNet image = vggNet image) :=
  ⟨fun _ _ _ _ _ => rfl, fun _ _ => rfl, fun _ _ => rfl⟩

/-! ### C3: missing checkpoint means fail-fast -/

/-- C3: when the pretrained VGG checkpoint file is absent, `main` exits
with status 1 (nonzero) and the download message, having performed no
effect at all — in particular it creates no directory and starts no
worker. -/
theorem C3_missing_checkpoint_fails_fast (fileExists : String → Bool)
    (args : Args) (num_batches : ℕ)
    (h : fileExists (pathJoin args.data_dir "vgg_19.ckpt") = false) :
    (main_run fileExists args num_batches).2 = some (1, checkpointMessage) ∧
    (1 : ℕ) ≠ 0 ∧
    (main_run fileExists args num_batches).1 = [] ∧
    (∀ p, Effect.createDir p ∉ (main_run fileExists args num_batches).1) ∧
    (∀ n, Effect.startWorkers n ∉ (main_run fileExists args num_batches).1) := by
  simp [main_run, h]

/-- Witness for C3 at a concrete empty filesystem and default arguments. -/
theorem C3_witness :
    (main_run (fun _ => false) (get_args "data" "out" "run") 7).2 =
      some (1, checkpointMessage) ∧
    (1 : ℕ) ≠ 0 ∧
    (main_run (fun _ => false) (get_args "data" "out" "run") 7).1 = [] ∧
    (∀ p, Effect.createDir p ∉
      (main_run (fun _ => false) (get_args "data" "out" "run") 7).1) ∧
    (∀ n, Effect.startWorkers n ∉
      (main_run (fun _ => false) (get_args "data" "out" "run") 7).1) :=
  C3_missing_checkpoint_fails_fast (fun _ => false) (get_args "data" "out" "run")
    7 rfl

/-! ### C4: periodic visualization and checkpoint effects -/

/-- C4: a training step writes the visualization exactly to
`<output_dir>/<name>/images/<epoch>_<batch>.jpg` and snapshots the model
exactly to `<output_dir>/<name>/model.ckpt`, precisely at the steps where
the batch number is divisible by `save_every`, whose parsed default
is 50. -/
theorem C4_periodic_save (args : Args) (num_batches epoch batch_num : ℕ) :
    ((Effect.writeImage (pathJoin (pathJoin (pathJoin args.output_dir args.name)
        "images") (toString epoch ++ "_" ++ toString batch_num ++ ".jpg")) ∈
      trainStepEffects args num_batches epoch batch_num) ↔
        batch_num % args.save_every = 0) ∧
    ((Effect.saveCheckpoint (pathJoin (pathJoin args.output_dir args.name)
        "model.ckpt") ∈ trainStepEffects args num_batches epoch batch_num) ↔
        batch_num % args.save_every = 0) ∧
    (∀ p, Effect.writeImage p ∈ trainStepEffects args num_batches epoch batch_num →
      p = pathJoin (pathJoin (pathJoin args.output_dir args.name) "images")
        (toString epoch ++ "_" ++ toString batch_num ++ ".jpg")) ∧
    (∀ p, Effect.saveCheckpoint p ∈
        trainStepEffects args num_batches epoch batch_num →
      p = pathJoin (pathJoin args.output_dir args.name) "model.ckpt") ∧
    (∀ data_dir output_dir name, (get_args data_dir output_dir name).save_every = 50) := by
  by_cases h : batch_num % args.save_every = 0 <;>
    simp [trainStepEffects, h, get_args]

/-! ### C1: the min/mean blend (spec scenario's arithmetic is wrong) -/

/-- C1 as stated is false: with per-candidate losses 10 and 20 the blend
`0.999 * min + 0.001 * mean` equals 10.005, not 9.9975. -/
theorem C1_counterexample : ¬ minMeanBlend [10, 20] = 9.9975 := by
  norm_num [minMeanBlend, listMin, listMean, List.foldl]

/-- C1 (amended): the final loss is `0.999 * min + 0.001 * mean` of the
per-candidate losses, and for two candidates with losses 10 and 20 the
blend equals 10.005. -/
theorem C1_blend_amended :
    (∀ (vggNet : VggNet) (resize : ResizeFn)
      (image_bw image_rgb_real images_rgb_fake : Tensor4),
      build_loss_func vggNet resize image_bw image_rgb_real images_rgb_fake =
        0.999 * listMin (lossesList vggNet resize image_bw image_rgb_real
            images_rgb_fake lambda_weights) +
        0.001 * listMean (lossesList vggNet resize image_bw image_rgb_real
            images_rgb_fake lambda_weights)) ∧
    minMeanBlend [10, 20] = 10.005 := by
  constructor
  · intro vggNet resize image_bw image_rgb_real images_rgb_fake
    simp [build_loss_func, build_loss_funcW]
    ring
  · norm_num [minMeanBlend, listMin, listMean, List.foldl]

/-! ### C7: slice / reassemble round trip -/

/-- C7: slicing a 27-channel candidate bundle into its nine contiguous
3-channel slices (offsets 0, 3, …, 24) and concatenating them back along
the channel axis reproduces the bundle exactly. -/
theorem C7_slice_reassemble (t : Tensor4) (h : t.chans = 27) :
    tensorEq (concat3List (sliceBundle t)) t := by
  have hhead : (sliceBundle t).headD zeroT = sliceChannels t 0 := rfl
  have hlen : (sliceBundle t).length = 9 := by simp [sliceBundle]
  refine ⟨?_, ?_, ?_, ?_, ?_⟩
  · show ((sliceBundle t).headD zeroT).batch = t.batch
    rw [hhead]
    rfl
  · show ((sliceBundle t).headD zeroT).rows = t.rows
    rw [hhead]
    rfl
  · show ((sliceBundle t).headD zeroT).cols = t.cols
    rw [hhead]
    rfl
  · show 3 * (sliceBundle t).length = t.chans
    rw [hlen, h]
  · intro b hb r hr c hc k hk
    have hk27 : k < 27 := by
      have : (concat3List (sliceBundle t)).chans = 27 := by
        show 3 * (sliceBundle t).length = 27
        rw [hlen]
      omega
    have hdiv : k / 3 < 9 := Nat.div_lt_of_lt_mul (by omega)
    have hget : (sliceBundle t).getD (k / 3) zeroT = sliceChannels t (k / 3) := by
      simpa [sliceBundle] using
        getD_map_range (sliceChannels t) 9 (k / 3) hdiv zeroT
    show ((sliceBundle t).getD (k / 3) zeroT).val b r c (k % 3) = t.val b r c k
    rw [hget]
    show t.val b r c (k / 3 * 3 + k % 3) = t.val b r c k
    congr 1
    omega

/-- Witness for C7 at a concrete 1×1×1×27 bundle. -/
theorem C7_witness :
    tensorEq
      (concat3List (sliceBundle
        (⟨1, 1, 1, 27, fun _ _ _ k => (k : ℚ)⟩ : Tensor4)))
      (⟨1, 1, 1, 27, fun _ _ _ k => (k : ℚ)⟩ : Tensor4) :=
  C7_slice_reassemble _ rfl

/-! ### C10: clipping asymmetry in the visualization sink -/

/-- C10: in `save_images` only the candidate batch is clipped to `[0, 1]`
before the 255-scaling and byte cast, so its written values always lie in
`[0, 255]`, while ground-truth and grayscale values pass through the cast
unclipped and wrap modulo 256 when outside `[0, 1]` (e.g. 1.5 ↦ 126 and
−1 ↦ 1, where the clipped pipeline would give 255 and 0). -/
theorem C10_clipping_asymmetry :
    (∀ v : ℚ, fakeWritePixel v = astype_uint8 (clip01 v * 255)) ∧
    (∀ v : ℚ, realWritePixel v = astype_uint8 (v * 255) ∧
      bwWritePixel v = astype_uint8 (v * 255)) ∧
    (∀ v : ℚ, 0 ≤ fakeWritePixel v ∧ fakeWritePixel v ≤ 255) ∧
    realWritePixel (3 / 2) = 126 ∧ bwWritePixel (3 / 2) = 126 ∧
    fakeWritePixel (3 / 2) = 255 ∧ realWritePixel (-1) = 1 ∧
    fakeWritePixel (-1) = 0 := by
  refine ⟨fun v => rfl, fun v => ⟨rfl, rfl⟩, fun v => ?_,
    by norm_num [realWritePixel, u8scale, astype_uint8, truncInt],
    by norm_num [bwWritePixel, u8scale, astype_uint8, truncInt],
    by norm_num [fakeWritePixel, u8scale, astype_uint8, truncInt, clip01,
      max_def, min_def],
    by norm_num [realWritePixel, u8scale, astype_uint8, truncInt],
    by norm_num [fakeWritePixel, u8scale, astype_uint8, truncInt, clip01,
      max_def, min_def]⟩
  have h0 : (0 : ℚ) ≤ clip01 v := le_min (le_max_right v 0) (by norm_num)
  have h1 : clip01 v ≤ 1 := min_le_right _ _
  have hx0 : (0 : ℚ) ≤ clip01 v * 255 := by positivity
  have hx1 : clip01 v * 255 ≤ 255 := by nlinarith
  have htr : truncInt (clip01 v * 255) = ⌊clip01 v * 255⌋ := by
    simp [truncInt, hx0]
  have hf0 : (0 : ℤ) ≤ ⌊clip01 v * 255⌋ := Int.floor_nonneg.2 hx0
  have hf1 : ⌊clip01 v * 255⌋ ≤ 255 := by
    have := Int.floor_le_floor (α := ℚ) hx1
    simpa using this
  have hmod : truncInt (clip01 v * 255) % 256 = ⌊clip01 v * 255⌋ := by
    rw [htr, Int.emod_eq_of_lt hf0 (by omega)]
  refine ⟨?_, ?_⟩
  · show (0 : ℤ) ≤ astype_uint8 (clip01 v * 255)
    rw [astype_uint8, hmod]
    exact hf0
  · show astype_uint8 (clip01 v * 255) ≤ 255
    rw [astype_uint8, hmod]
    exact hf1

/-! ### C8: visualization tiling dimensions -/

lemma foldl_hstack2_dims (xs : List (Img ℤ)) : ∀ a : Img ℤ,
    (xs.foldl hstack2 a).h = a.h ∧
    (xs.foldl hstack2 a).w = a.w + (xs.map Img.w).sum := by
  induction xs with
  | nil => exact fun a => ⟨rfl, by simp⟩
  | cons x xs ih =>
      intro a
      refine ⟨(ih (hstack2 a x)).1, ?_⟩
      rw [List.foldl_cons, (ih (hstack2 a x)).2]
      show a.w + x.w + (xs.map Img.w).sum = a.w + (x.w + (xs.map Img.w).sum)
      omega

lemma foldl_vstack2_dims (xs : List (Img ℤ)) : ∀ a : Img ℤ,
    (xs.foldl vstack2 a).h = a.h + (xs.map Img.h).sum ∧
    (xs.foldl vstack2 a).w = a.w := by
  induction xs with
  | nil => exact fun a => ⟨by simp, rfl⟩
  | cons x xs ih =>
      intro a
      refine ⟨?_, (ih (vstack2 a x)).2⟩
      rw [List.foldl_cons, (ih (vstack2 a x)).1]
      show a.h + x.h + (xs.map Img.h).sum = a.h + (x.h + (xs.map Img.h).sum)
      omega

lemma sum_map_const_of {α : Type} (l : List α) (f : α → ℕ) (v : ℕ)
    (h : ∀ x ∈ l, f x = v) : (l.map f).sum = l.length * v := by
  induction l with
  | nil => simp
  | cons x xs ih =>
      have hx : f x = v := h x (by simp)
      have ihx := ih fun y hy => h y (by simp [hy])
      simp [hx, ihx]
      ring

lemma tileRow_dims (bw real fake : Img ℤ) (H W : ℕ)
    (h1 : bw.h = H) (h2 : bw.w = W) (h4 : real.w = W) (h6 : fake.w = W) :
    (tileRow bw real fake).h = H ∧ (tileRow bw real fake).w = 11 * W := by
  have hrow : tileRow bw real fake =
      (real :: (List.range 9).map (sliceImgChannels fake)).foldl hstack2
        (grayToBGR bw) := rfl
  have hd := foldl_hstack2_dims
    (real :: (List.range 9).map (sliceImgChannels fake)) (grayToBGR bw)
  have hsl : ((((List.range 9).map (sliceImgChannels fake))).map Img.w).sum
      = 9 * fake.w := by
    rw [List.map_map]
    exact sum_map_const_of _ _ fake.w (fun x _ => rfl)
  constructor
  · rw [hrow, hd.1]
    exact h1
  · rw [hrow, hd.2, List.map_cons, List.sum_cons, hsl]
    show bw.w + (real.w + 9 * fake.w) = 11 * W
    rw [h2, h4, h6]
    ring

lemma mem_zip3 {α β γ : Type} (a : List α) (b : List β) (c : List γ)
    (t : α × β × γ) (ht : t ∈ zip3 a b c) :
    t.1 ∈ a ∧ t.2.1 ∈ b ∧ t.2.2 ∈ c := by
  obtain ⟨p, hp, rfl⟩ := List.mem_map.1 ht
  have h1 := List.of_mem_zip hp
  have h2 := List.of_mem_zip h1.2
  exact ⟨h1.1, h2.1, h2.2⟩

lemma zip3_length {α β γ : Type} (a : List α) (b : List β) (c : List γ) :
    (zip3 a b c).length = min a.length (min b.length c.length) := by
  simp [zip3]

/-- C8: the image `save_images` writes for `B ≥ 1` examples, each input
image `H×W` with 9 candidates per example, has height exactly `B*H` and
width exactly `(2+9)*W = 11*W`. -/
theorem C8_tile_dimensions (batch_rgb_fake batch_rgb_real batch_bw : List (Img ℚ))
    (B H W : ℕ) (hB : 0 < B)
    (hfl : batch_rgb_fake.length = B) (hrl : batch_rgb_real.length = B)
    (hbl : batch_bw.length = B)
    (hfd : ∀ im ∈ batch_rgb_fake, im.h = H ∧ im.w = W)
    (hrd : ∀ im ∈ batch_rgb_real, im.h = H ∧ im.w = W)
    (hbd : ∀ im ∈ batch_bw, im.h = H ∧ im.w = W) :
    (save_images batch_rgb_fake batch_rgb_real batch_bw).h = B * H ∧
    (save_images batch_rgb_fake batch_rgb_real batch_bw).w = 11 * W := by
  set bwU := batch_bw.map (mapImg u8scale) with hbwU
  set realU := batch_rgb_real.map (mapImg u8scale) with hrealU
  set fakeU := (batch_rgb_fake.map (mapImg clip01)).map (mapImg u8scale) with hfakeU
  have hbwUd : ∀ im ∈ bwU, im.h = H ∧ im.w = W := by
    intro im him
    obtain ⟨x, hx, rfl⟩ := List.mem_map.1 him
    exact hbd x hx
  have hrealUd : ∀ im ∈ realU, im.h = H ∧ im.w = W := by
    intro im him
    obtain ⟨x, hx, rfl⟩ := List.mem_map.1 him
    exact hrd x hx
  have hfakeUd : ∀ im ∈ fakeU, im.h = H ∧ im.w = W := by
    intro im him
    obtain ⟨x, hx, rfl⟩ := List.mem_map.1 him
    obtain ⟨y, hy, rfl⟩ := List.mem_map.1 hx
    exact hfd y hy
  have hsave : save_images batch_rgb_fake batch_rgb_real batch_bw =
      vstackN ((zip3 bwU realU fakeU).map fun t => tileRow t.1 t.2.1 t.2.2) := rfl
  set rows := (zip3 bwU realU fakeU).map fun t => tileRow t.1 t.2.1 t.2.2 with hrows
  have hrowslen : rows.length = B := by
    rw [hrows, List.length_map, zip3_length]
    simp [hbwU, hrealU, hfakeU, hfl, hrl, hbl]
  have hrowsd : ∀ rrow ∈ rows, rrow.h = H ∧ rrow.w = 11 * W := by
    intro rrow hrrow
    obtain ⟨t, ht, rfl⟩ := List.mem_map.1 hrrow
    obtain ⟨t1, t2, t3⟩ := mem_zip3 _ _ _ t ht
    exact tileRow_dims t.1 t.2.1 t.2.2 H W (hbwUd _ t1).1 (hbwUd _ t1).2
      (hrealUd _ t2).2 (hfakeUd _ t3).2
  have hne : rows ≠ [] := by
    intro h0
    rw [h0] at hrowslen
    simp at hrowslen
    omega
  obtain ⟨r, rest, hre⟩ := List.exists_cons_of_ne_nil hne
  have hd := foldl_vstack2_dims rest r
  have hr : r.h = H ∧ r.w = 11 * W := hrowsd r (by rw [hre]; simp)
  have hrest : (rest.map Img.h).sum = rest.length * H :=
    sum_map_const_of rest Img.h H fun x hx => (hrowsd x (by rw [hre]; simp [hx])).1
  have hB' : rest.length + 1 = B := by
    rw [hre] at hrowslen
    simpa using hrowslen
  rw [hsave, hre]
  constructor
  · show (rest.foldl vstack2 r).h = B * H
    rw [hd.1, hr.1, hrest, ← hB']
    ring
  · show (rest.foldl vstack2 r).w = 11 * W
    rw [hd.2, hr.2]

/-- Witness for C8 at a concrete batch of one 1×1 example. -/
theorem C8_witness :
    (save_images [⟨1, 1, 27, fun _ _ _ => (0 : ℚ)⟩]
      [⟨1, 1, 3, fun _ _ _ => (0 : ℚ)⟩] [⟨1, 1, 1, fun _ _ _ => (0 : ℚ)⟩]).h
        = 1 * 1 ∧
    (save_images [⟨1, 1, 27, fun _ _ _ => (0 : ℚ)⟩]
      [⟨1, 1, 3, fun _ _ _ => (0 : ℚ)⟩] [⟨1, 1, 1, fun _ _ _ => (0 : ℚ)⟩]).w
        = 11 * 1 :=
  C8_tile_dimensions _ _ _ 1 1 1 (by norm_num) rfl rfl rfl
    (by intro im him; simp at him; simp [him])
    (by intro im him; simp at him; simp [him])
    (by intro im him; simp at him; simp [him])

/-! ### Lemmas about the loss engine -/

lemma maskMul_absDiff_val (w : ℚ) (m a b : Tensor4) (i r c k : ℕ) :
    (maskMul w m (absDiff a b)).val i r c k =
      w * m.val i r c 0 * |a.val i r c k - b.val i r c k| := rfl

lemma sum_range_eq_zero_iff (n : ℕ) (f : ℕ → ℚ) (h : ∀ i, 0 ≤ f i) :
    (∑ i in Finset.range n, f i) = 0 ↔ ∀ i < n, f i = 0 := by
  rw [Finset.sum_eq_zero_iff_of_nonneg (fun i _ => h i)]
  simp

lemma reduceSum_nonneg (t : Tensor4) (h : ∀ b r c k, 0 ≤ t.val b r c k) :
    0 ≤ reduceSum t :=
  Finset.sum_nonneg fun b _ => Finset.sum_nonneg fun r _ =>
    Finset.sum_nonneg fun c _ => Finset.sum_nonneg fun k _ => h b r c k

lemma reduceSum_eq_zero_iff (t : Tensor4) (h : ∀ b r c k, 0 ≤ t.val b r c k) :
    reduceSum t = 0 ↔
      ∀ b < t.batch, ∀ r < t.rows, ∀ c < t.cols, ∀ k < t.chans,
        t.val b r c k = 0 := by
  unfold reduceSum
  rw [sum_range_eq_zero_iff _ _ (fun b => Finset.sum_nonneg fun r _ =>
    Finset.sum_nonneg fun c _ => Finset.sum_nonneg fun k _ => h b r c k)]
  refine forall₂_congr fun b hb => ?_
  rw [sum_range_eq_zero_iff _ _ (fun r => Finset.sum_nonneg fun c _ =>
    Finset.sum_nonneg fun k _ => h b r c k)]
  refine forall₂_congr fun r hr => ?_
  rw [sum_range_eq_zero_iff _ _ (fun c => Finset.sum_nonneg fun k _ => h b r c k)]
  refine forall₂_congr fun c hc => ?_
  exact sum_range_eq_zero_iff _ _ (fun k => h b r c k)

lemma list_sum_eq_zero_iff (l : List ℚ) (h : ∀ x ∈ l, 0 ≤ x) :
    l.sum = 0 ↔ ∀ x ∈ l, x = 0 := by
  induction l with
  | nil => simp
  | cons x xs ih =>
      have hx := h x (by simp)
      have hxs : ∀ y ∈ xs, 0 ≤ y := fun y hy => h y (by simp [hy])
      have hsum := List.sum_nonneg hxs
      constructor
      · intro h0
        rw [List.sum_cons] at h0
        have hx0 : x = 0 := by linarith
        have hs0 : xs.sum = 0 := by linarith
        intro y hy
        rcases List.mem_cons.1 hy with hy0 | hy1
        · rw [hy0, hx0]
        · exact ((ih hxs).1 hs0) y hy1
      · intro hall
        rw [List.sum_cons, hall x (by simp), (ih hxs).2 fun y hy => hall y (by simp [hy])]
        ring

lemma foldl_min_le (xs : List ℚ) : ∀ a : ℚ, xs.foldl min a ≤ a := by
  induction xs with
  | nil => exact fun a => le_refl a
  | cons x xs ih =>
      intro a
      exact le_trans (ih (min a x)) (min_le_left a x)

lemma foldl_min_nonneg (xs : List ℚ) (h : ∀ x ∈ xs, 0 ≤ x) :
    ∀ a : ℚ, 0 ≤ a → 0 ≤ xs.foldl min a := by
  induction xs with
  | nil => exact fun a ha => ha
  | cons x xs ih =>
      intro a ha
      exact ih (fun y hy => h y (by simp [hy])) (min a x)
        (le_min ha (h x (by simp)))

lemma listMin_nonneg (l : List ℚ) (h : ∀ x ∈ l, 0 ≤ x) : 0 ≤ listMin l := by
  cases l with
  | nil => exact le_refl 0
  | cons x xs =>
      exact foldl_min_nonneg xs (fun y hy => h y (by simp [hy])) x (h x (by simp))

lemma listMin_eq_zero (l : List ℚ) (h0 : ∀ x ∈ l, 0 ≤ x)
    (h : ∀ x ∈ l, x = (0 : ℚ)) : listMin l = 0 := by
  cases l with
  | nil => rfl
  | cons x xs =>
      have hx : x = 0 := h x (by simp)
      refine le_antisymm ?_ ?_
      · calc xs.foldl min x ≤ x := foldl_min_le xs x
          _ = 0 := hx
      · exact foldl_min_nonneg xs (fun y hy => h0 y (by simp [hy])) x
          (h0 x (by simp))

lemma listMean_nonneg (l : List ℚ) (h : ∀ x ∈ l, 0 ≤ x) : 0 ≤ listMean l :=
  div_nonneg (List.sum_nonneg h) (Nat.cast_nonneg _)

lemma lossInner_nonneg (vggNet : VggNet) (resize : ResizeFn)
    (image_bw image_rgb_real images_rgb_fake : Tensor4) (i : ℕ) (w : ℚ)
    (layer : String) (hw : 0 ≤ w)
    (hmask : ∀ rr cc b r c, 0 ≤ (resize image_bw rr cc).val b r c 0) :
    0 ≤ lossInner vggNet resize image_bw image_rgb_real images_rgb_fake i w layer := by
  unfold lossInner
  apply reduceSum_nonneg
  intro b r c k
  rw [maskMul_absDiff_val]
  exact mul_nonneg (mul_nonneg hw (hmask _ _ _ _ _)) (abs_nonneg _)

lemma reduceSum_maskMul (w : ℚ) (m t : Tensor4) :
    reduceSum (maskMul w m t) = w * reduceSum (maskMul 1 m t) := by
  unfold reduceSum maskMul
  simp [Finset.mul_sum, mul_assoc]

lemma lossInner_smul (vggNet : VggNet) (resize : ResizeFn)
    (image_bw image_rgb_real images_rgb_fake : Tensor4) (i : ℕ) (w : ℚ)
    (layer : String) :
    lossInner vggNet resize image_bw image_rgb_real images_rgb_fake i w layer =
      w * lossInner vggNet resize image_bw image_rgb_real images_rgb_fake i 1 layer := by
  unfold lossInner
  exact reduceSum_maskMul w _ _

lemma lambda_weights_pos : ∀ p ∈ lambda_weights.zip layers, (0 : ℚ) < p.1 := by
  intro p hp
  fin_cases hp <;> norm_num

lemma losses_collection_nonneg (vggNet : VggNet) (resize : ResizeFn)
    (image_bw image_rgb_real images_rgb_fake : Tensor4) (i : ℕ)
    (hmask : ∀ rr cc b r c, 0 ≤ (resize image_bw rr cc).val b r c 0) :
    ∀ x ∈ losses_collection vggNet resize image_bw image_rgb_real
        images_rgb_fake lambda_weights i, 0 ≤ x := by
  intro x hx
  obtain ⟨p, hp, rfl⟩ := List.mem_map.1 hx
  exact lossInner_nonneg vggNet resize image_bw image_rgb_real images_rgb_fake
    i p.1 p.2 (le_of_lt (lambda_weights_pos p hp)) hmask

lemma lossesList_nonneg (vggNet : VggNet) (resize : ResizeFn)
    (image_bw image_rgb_real images_rgb_fake : Tensor4)
    (hmask : ∀ rr cc b r c, 0 ≤ (resize image_bw rr cc).val b r c 0) :
    ∀ x ∈ lossesList vggNet resize image_bw image_rgb_real images_rgb_fake
        lambda_weights, 0 ≤ x := by
  intro x hx
  obtain ⟨i, _, rfl⟩ := List.mem_map.1 hx
  exact List.sum_nonneg
    (losses_collection_nonneg vggNet resize image_bw image_rgb_real
      images_rgb_fake i hmask)

lemma lossInner_eq_spec (vggNet : VggNet) (resize : ResizeFn)
    (image_bw image_rgb_real images_rgb_fake : Tensor4) (i : ℕ) (w : ℚ)
    (layer : String) :
    lossInner vggNet resize image_bw image_rgb_real images_rgb_fake i w layer =
      ∑ b in Finset.range (actFake vggNet images_rgb_fake i layer).batch,
        ∑ r in Finset.range (actFake vggNet images_rgb_fake i layer).rows,
          ∑ c in Finset.range (actFake vggNet images_rgb_fake i layer).cols,
            ∑ k in Finset.range (actFake vggNet images_rgb_fake i layer).chans,
              w * ((layerMask resize image_bw
                  (actFake vggNet images_rgb_fake i layer)).val b r c 0 *
                |(actFake vggNet images_rgb_fake i layer).val b r c k -
                  (actReal vggNet image_rgb_real layer).val b r c k|) := by
  unfold lossInner reduceSum
  refine Finset.sum_congr rfl fun b _ => Finset.sum_congr rfl fun r _ =>
    Finset.sum_congr rfl fun c _ => Finset.sum_congr rfl fun k _ => ?_
  rw [maskMul_absDiff_val, mul_assoc]

/-! ### C2: per-layer scores and per-candidate losses -/

/-- C2: for every candidate `i`, the list of the 6 per-layer scalars is
exactly the list of spec-side per-layer scores (fixed weight × resampled
mask × elementwise absolute difference, summed over batch, spatial and
channel positions), and the per-candidate loss is the sum of those 6
scalars. -/
theorem C2_layer_scores (vggNet : VggNet) (resize : ResizeFn)
    (image_bw image_rgb_real images_rgb_fake : Tensor4) (i : ℕ) :
    losses_collection vggNet resize image_bw image_rgb_real images_rgb_fake
        lambda_weights i =
      (List.range 6).map
        (specLayerScore vggNet resize image_bw image_rgb_real images_rgb_fake i) ∧
    loss_collection vggNet resize image_bw image_rgb_real images_rgb_fake
        lambda_weights i =
      ((List.range 6).map
        (specLayerScore vggNet resize image_bw image_rgb_real images_rgb_fake i)).sum := by
  have hz : losses_collection vggNet resize image_bw image_rgb_real
      images_rgb_fake lambda_weights i =
        (List.range 6).map
          (specLayerScore vggNet resize image_bw image_rgb_real images_rgb_fake i) := by
    show List.map _ (lambda_weights.zip layers) = _
    have h6 : List.range 6 = [0, 1, 2, 3, 4, 5] := rfl
    rw [h6]
    simp only [lambda_weights, layers, List.zip_cons_cons, List.zip_nil_right,
      List.map_cons, List.map_nil, List.cons.injEq, and_true]
    refine ⟨?_, ?_, ?_, ?_, ?_, ?_⟩ <;>
      (rw [lossInner_eq_spec]; rfl)
  exact ⟨hz, by rw [loss_collection, hz]⟩

/-! ### C5: nonnegativity and the zero-loss characterization -/

lemma lossInner_eq_zero_iff (vggNet : VggNet) (resize : ResizeFn)
    (image_bw image_rgb_real images_rgb_fake : Tensor4) (i : ℕ) (w : ℚ)
    (layer : String) (hw : 0 < w)
    (hmask : ∀ rr cc b r c, 0 ≤ (resize image_bw rr cc).val b r c 0) :
    lossInner vggNet resize image_bw image_rgb_real images_rgb_fake i w layer = 0 ↔
      candidateMatchesAtLayer vggNet resize image_bw image_rgb_real
        images_rgb_fake i layer := by
  unfold lossInner
  rw [reduceSum_eq_zero_iff _ (fun b r c k => by
    rw [maskMul_absDiff_val]
    exact mul_nonneg (mul_nonneg (le_of_lt hw) (hmask _ _ _ _ _)) (abs_nonneg _))]
  unfold candidateMatchesAtLayer
  refine forall₂_congr fun b hb => forall₂_congr fun r hr =>
    forall₂_congr fun c hc => forall₂_congr fun k hk => ?_
  rw [maskMul_absDiff_val]
  constructor
  · intro h0 hm
    rcases mul_eq_zero.1 h0 with h1 | h2
    · rcases mul_eq_zero.1 h1 with h3 | h4
      · exact absurd h3 (ne_of_gt hw)
      · exact absurd h4 hm
    · exact sub_eq_zero.1 (abs_eq_zero.1 h2)
  · intro himp
    by_cases hm : (layerMask resize image_bw
        (actFake vggNet images_rgb_fake i layer)).val b r c 0 = 0
    · rw [hm]
      ring
    · rw [himp hm]
      simp

lemma loss_collection_eq_zero_iff (vggNet : VggNet) (resize : ResizeFn)
    (image_bw image_rgb_real images_rgb_fake : Tensor4) (i : ℕ)
    (hmask : ∀ rr cc b r c, 0 ≤ (resize image_bw rr cc).val b r c 0) :
    loss_collection vggNet resize image_bw image_rgb_real images_rgb_fake
        lambda_weights i = 0 ↔
      ∀ p ∈ lambda_weights.zip layers,
        candidateMatchesAtLayer vggNet resize image_bw image_rgb_real
          images_rgb_fake i p.2 := by
  unfold loss_collection
  rw [list_sum_eq_zero_iff _
    (losses_collection_nonneg vggNet resize image_bw image_rgb_real
      images_rgb_fake i hmask)]
  constructor
  · intro h0 p hp
    have := h0 _ (List.mem_map_of_mem _ hp)
    exact (lossInner_eq_zero_iff vggNet resize image_bw image_rgb_real
      images_rgb_fake i p.1 p.2 (lambda_weights_pos p hp) hmask).1 this
  · intro hall x hx
    obtain ⟨p, hp, rfl⟩ := List.mem_map.1 hx
    exact (lossInner_eq_zero_iff vggNet resize image_bw image_rgb_real
      images_rgb_fake i p.1 p.2 (lambda_weights_pos p hp) hmask).2 (hall p hp)

/-- C5: with a nonnegative grayscale mask, the training loss is
nonnegative, and it is zero exactly when every one of the 9 candidates
matches the ground truth at every weighted layer wherever the resampled
mask is nonzero. -/
theorem C5_nonneg_zero_iff (vggNet : VggNet) (resize : ResizeFn)
    (image_bw image_rgb_real images_rgb_fake : Tensor4)
    (hmask : ∀ rr cc b r c, 0 ≤ (resize image_bw rr cc).val b r c 0) :
    0 ≤ build_loss_func vggNet resize image_bw image_rgb_real images_rgb_fake ∧
    (build_loss_func vggNet resize image_bw image_rgb_real images_rgb_fake = 0 ↔
      allCandidatesMatch vggNet resize image_bw image_rgb_real images_rgb_fake) := by
  have hLnn := lossesList_nonneg vggNet resize image_bw image_rgb_real
    images_rgb_fake hmask
  have hmin := listMin_nonneg _ hLnn
  have hmean := listMean_nonneg _ hLnn
  have hloss : build_loss_func vggNet resize image_bw image_rgb_real
      images_rgb_fake =
    listMin (lossesList vggNet resize image_bw image_rgb_real images_rgb_fake
      lambda_weights) * 0.999 +
    listMean (lossesList vggNet resize image_bw image_rgb_real images_rgb_fake
      lambda_weights) * 0.001 := rfl
  have hlen : (lossesList vggNet resize image_bw image_rgb_real images_rgb_fake
      lambda_weights).length = 9 := by
    simp [lossesList, collection_size]
  constructor
  · rw [hloss]
    have := mul_nonneg hmin (by norm_num : (0 : ℚ) ≤ 0.999)
    have := mul_nonneg hmean (by norm_num : (0 : ℚ) ≤ 0.001)
    linarith
  · rw [hloss]
    constructor
    · intro h0 i hi p hp
      have hminz : listMin (lossesList vggNet resize image_bw image_rgb_real
          images_rgb_fake lambda_weights) = 0 := by nlinarith
      have hmeanz : listMean (lossesList vggNet resize image_bw image_rgb_real
          images_rgb_fake lambda_weights) = 0 := by nlinarith
      have hsz : (lossesList vggNet resize image_bw image_rgb_real
          images_rgb_fake lambda_weights).sum = 0 := by
        have := hmeanz
        rw [listMean, hlen] at this
        field_simp at this
        exact this
      have hall := (list_sum_eq_zero_iff _ hLnn).1 hsz
      have hmem : loss_collection vggNet resize image_bw image_rgb_real
          images_rgb_fake lambda_weights i ∈
            lossesList vggNet resize image_bw image_rgb_real images_rgb_fake
              lambda_weights :=
        List.mem_map_of_mem _ (List.mem_range.2 hi)
      exact (loss_collection_eq_zero_iff vggNet resize image_bw image_rgb_real
        images_rgb_fake i hmask).1 (hall _ hmem) p hp
    · intro hmatch
      have hall : ∀ x ∈ lossesList vggNet resize image_bw image_rgb_real
          images_rgb_fake lambda_weights, x = 0 := by
        intro x hx
        obtain ⟨i, hi, rfl⟩ := List.mem_map.1 hx
        exact (loss_collection_eq_zero_iff vggNet resize image_bw image_rgb_real
          images_rgb_fake i hmask).2 (hmatch i (List.mem_range.1 hi))
      rw [listMin_eq_zero _ hLnn hall, listMean,
        (list_sum_eq_zero_iff _ hLnn).2 hall]
      norm_num

/-- Witness for C5 at concrete all-zero tensors and network. -/
theorem C5_witness :
    0 ≤ build_loss_func (fun _ _ => zeroT) (fun _ _ _ => zeroT) zeroT zeroT zeroT ∧
    (build_loss_func (fun _ _ => zeroT) (fun _ _ _ => zeroT) zeroT zeroT zeroT = 0 ↔
      allCandidatesMatch (fun _ _ => zeroT) (fun _ _ _ => zeroT) zeroT zeroT zeroT) :=
  C5_nonneg_zero_iff (fun _ _ => zeroT) (fun _ _ _ => zeroT) zeroT zeroT zeroT
    (fun _ _ _ _ _ => le_refl 0)

/-! ### C6: monotonicity in the layer weights -/

lemma loss_collection_eq_weighted (vggNet : VggNet) (resize : ResizeFn)
    (image_bw image_rgb_real images_rgb_fake : Tensor4) (w : List ℚ) (i : ℕ) :
    loss_collection vggNet resize image_bw image_rgb_real images_rgb_fake w i =
      ((w.zip layers).map fun p =>
        p.1 * lossInner vggNet resize image_bw image_rgb_real images_rgb_fake
          i 1 p.2).sum := by
  unfold loss_collection losses_collection
  congr 1
  refine List.map_congr_left fun p _ => ?_
  exact lossInner_smul vggNet resize image_bw image_rgb_real images_rgb_fake
    i p.1 p.2

lemma zip_weight_sum_mono (g : String → ℚ) (hg : ∀ s, 0 ≤ g s) :
    ∀ (a b : List ℚ) (s : List String), a.length = b.length →
      (∀ k, a.getD k 0 ≤ b.getD k 0) →
      ((a.zip s).map fun p => p.1 * g p.2).sum ≤
        ((b.zip s).map fun p => p.1 * g p.2).sum := by
  intro a
  induction a with
  | nil =>
      intro b s hlen _
      have hb : b = [] := List.length_eq_zero.1 hlen.symm
      rw [hb]
  | cons x xs ih =>
      intro b s hlen hpt
      cases b with
      | nil => exact absurd hlen (by simp)
      | cons y ys =>
          cases s with
          | nil => exact le_refl 0
          | cons t ts =>
              have hx : x ≤ y := hpt 0
              have hxs : ∀ k, xs.getD k 0 ≤ ys.getD k 0 := fun k => hpt (k + 1)
              have hrest := ih ys ts (by simpa using hlen) hxs
              simp only [List.zip_cons_cons, List.map_cons, List.sum_cons]
              exact add_le_add (mul_le_mul_of_nonneg_right hx (hg t)) hrest

lemma forall2_map_le {α : Type} (l : List α) (f g : α → ℚ)
    (h : ∀ x ∈ l, f x ≤ g x) :
    List.Forall₂ (· ≤ ·) (l.map f) (l.map g) := by
  induction l with
  | nil => exact List.Forall₂.nil
  | cons x xs ih =>
      exact List.Forall₂.cons (h x (by simp))
        (ih fun y hy => h y (by simp [hy]))

lemma forall2_sum_le (l l' : List ℚ) (h : List.Forall₂ (· ≤ ·) l l') :
    l.sum ≤ l'.sum := by
  induction h with
  | nil => exact le_refl 0
  | cons hab _ ih => simpa using add_le_add hab ih

lemma foldl_min_mono (xs ys : List ℚ) (h : List.Forall₂ (· ≤ ·) xs ys) :
    ∀ a b : ℚ, a ≤ b → xs.foldl min a ≤ ys.foldl min b := by
  induction h with
  | nil => exact fun a b hab => hab
  | cons hxy _ ih => exact fun a b hab => ih _ _ (min_le_min hab hxy)

lemma listMin_mono (l l' : List ℚ) (h : List.Forall₂ (· ≤ ·) l l') :
    listMin l ≤ listMin l' := by
  cases h with
  | nil => exact le_refl 0
  | cons hxy htail => exact foldl_min_mono _ _ htail _ _ hxy

lemma listMean_mono (l l' : List ℚ) (h : List.Forall₂ (· ≤ ·) l l') :
    listMean l ≤ listMean l' := by
  unfold listMean
  rw [← h.length_eq]
  rcases Nat.eq_zero_or_pos l.length with h0 | hpos
  · rw [h0]
    simp
  · have hc : (0 : ℚ) < l.length := by exact_mod_cast hpos
    exact (div_le_div_iff_of_pos_right hc).2 (forall2_sum_le l l' h)

/-- C6: with a nonnegative grayscale mask and activations held fixed, the
loss is monotone in each layer weight: if two weight vectors of length 6
agree except that one entry is increased, the loss cannot decrease. -/
theorem C6_weight_monotone (vggNet : VggNet) (resize : ResizeFn)
    (image_bw image_rgb_real images_rgb_fake : Tensor4) (w w' : List ℚ)
    (hlen : w.length = 6) (hlen' : w'.length = 6) (j : ℕ)
    (hagree : ∀ k, k ≠ j → w.getD k 0 = w'.getD k 0)
    (hinc : w.getD j 0 ≤ w'.getD j 0)
    (hmask : ∀ rr cc b r c, 0 ≤ (resize image_bw rr cc).val b r c 0) :
    build_loss_funcW vggNet resize image_bw image_rgb_real images_rgb_fake w ≤
      build_loss_funcW vggNet resize image_bw image_rgb_real images_rgb_fake w' := by
  have hpt : ∀ k, w.getD k 0 ≤ w'.getD k 0 := by
    intro k
    by_cases hk : k = j
    · rw [hk]
      exact hinc
    · exact le_of_eq (hagree k hk)
  have hcand : ∀ i, loss_collection vggNet resize image_bw image_rgb_real
      images_rgb_fake w i ≤
        loss_collection vggNet resize image_bw image_rgb_real images_rgb_fake
          w' i := by
    intro i
    rw [loss_collection_eq_weighted, loss_collection_eq_weighted]
    exact zip_weight_sum_mono _
      (fun s => lossInner_nonneg vggNet resize image_bw image_rgb_real
        images_rgb_fake i 1 s (by norm_num) hmask)
      w w' layers (hlen.trans hlen'.symm) hpt
  have hF : List.Forall₂ (· ≤ ·)
      (lossesList vggNet resize image_bw image_rgb_real images_rgb_fake w)
      (lossesList vggNet resize image_bw image_rgb_real images_rgb_fake w') :=
    forall2_map_le _ _ _ fun i _ => hcand i
  have hmin := listMin_mono _ _ hF
  have hmean := listMean_mono _ _ hF
  show listMin _ * 0.999 + listMean _ * 0.001 ≤
    listMin _ * 0.999 + listMean _ * 0.001
  have h1 := mul_le_mul_of_nonneg_right hmin (by norm_num : (0 : ℚ) ≤ 0.999)
  have h2 := mul_le_mul_of_nonneg_right hmean (by norm_num : (0 : ℚ) ≤ 0.001)
  linarith

/-- Witness for C6: increasing the first layer weight from 1 to 2 over
all-zero tensors. -/
theorem C6_witness :
    build_loss_funcW (fun _ _ => zeroT) (fun _ _ _ => zeroT) zeroT zeroT zeroT
        [1, 1, 1, 1, 1, 1] ≤
      build_loss_funcW (fun _ _ => zeroT) (fun _ _ _ => zeroT) zeroT zeroT zeroT
        [2, 1, 1, 1, 1, 1] :=
  C6_weight_monotone (fun _ _ => zeroT) (fun _ _ _ => zeroT) zeroT zeroT zeroT
    [1, 1, 1, 1, 1, 1] [2, 1, 1, 1, 1, 1] rfl rfl 0
    (fun k hk => match k with
      | 0 => absurd rfl hk
      | _ + 1 => rfl)
    (by norm_num)
    (fun _ _ _ _ _ => le_refl 0)

end SGRUTrain
